import Mathlib

/- Verification development for the NotesApplication repository.

   The client data layer (frontend/src/services/noteService.js) and the
   drag-and-drop reorder/move engine (frontend/src/utils/dnd-utils.jsx)
   are shallowly embedded below.  JavaScript values that can be null,
   undefined, a number or a string are modelled by `JsVal`; DOM elements
   are modelled by the attribute projections the engine actually reads. -/

/-- Model of the JavaScript values that flow through the client as entity
identifiers and foreign keys: null, undefined, a (integer) number, or a
string. -/
inductive JsVal where
  | vNull
  | vUndefined
  | vNum (n : Int)
  | vStr (s : String)
deriving DecidableEq, Repr

/-- JavaScript `String(v)` on the values of `JsVal`. -/
def jsString : JsVal → String
  | .vNull => "null"
  | .vUndefined => "undefined"
  | .vNum n => toString n
  | .vStr s => s

/-- JavaScript truthiness on the values of `JsVal`. -/
def jsTruthy : JsVal → Bool
  | .vNull => false
  | .vUndefined => false
  | .vNum n => n != 0
  | .vStr s => s != ""

/-- Whether a `JsVal` is a string value. -/
def isStr : JsVal → Bool
  | .vStr _ => true
  | _ => false

/-- Whether `pat` is an initial segment of `s` (on character lists, so
that concrete instances reduce in the kernel). -/
def isPrefixChars : List Char → List Char → Bool
  | [], _ => true
  | _ :: _, [] => false
  | p :: ps, c :: cs => p == c && isPrefixChars ps cs

/-- Whether `pat` occurs as a contiguous segment of `s`. -/
def containsChars (pat : List Char) : List Char → Bool
  | [] => isPrefixChars pat []
  | c :: cs => isPrefixChars pat (c :: cs) || containsChars pat cs

/-- If `s = pat ++ r`, return `some r`. -/
def dropPrefixChars : List Char → List Char → Option (List Char)
  | [], s => some s
  | _ :: _, [] => none
  | p :: ps, c :: cs => if p == c then dropPrefixChars ps cs else none

/-- Remove the first (leftmost) occurrence of `pat` from `s`. -/
def removeFirstChars (pat : List Char) : List Char → List Char
  | [] => []
  | c :: cs =>
    match dropPrefixChars pat (c :: cs) with
    | some r => r
    | none => c :: removeFirstChars pat cs

/-- JavaScript `s.includes(sub)` (substring containment). -/
def jsIncludes (s sub : String) : Bool :=
  containsChars sub.data s.data

/-- JavaScript `s.startsWith(pat)`. -/
def jsStartsWith (s pat : String) : Bool :=
  isPrefixChars pat.data s.data

/-- JavaScript `s.replace(pat, "")`: removes the first occurrence of `pat`. -/
def replaceFirst (s pat : String) : String :=
  if pat == "" then s
  else String.mk (removeFirstChars pat.data s.data)

/-- JavaScript `arr.splice(n, 0, a)` as a pure function: insert `a` at
index `n`, appending when `n` is past the end. -/
def insertAt : Nat → α → List α → List α
  | 0, a, l => a :: l
  | _ + 1, a, [] => [a]
  | n + 1, a, x :: xs => x :: insertAt n a xs

/-- The dnd-kit `arrayMove(array, from, to)` helper: remove the element at
`fr` and re-insert it at index `to`.  Callers in the repository guard both
indices with `findIndex !== -1`, so the out-of-range branch is inert. -/
def arrayMove (l : List α) (fr dst : Nat) : List α :=
  match l.get? fr with
  | none => l
  | some x => insertAt dst x (l.eraseIdx fr)

/-- JavaScript `Array.prototype.findIndex`, with `-1` rendered as `none`. -/
def jsFindIndex (p : α → Bool) : List α → Option Nat
  | [] => none
  | x :: xs => if p x then some 0 else (jsFindIndex p xs).map (· + 1)

/-- A note entry as seen by the note drag context: only its id matters to
the reorder decision. -/
structure NoteItem where
  id : JsVal
deriving DecidableEq, Repr

/-- The comparison `String(item.id) === String(targetId)` used by
`NoteDndContext.handleDragEnd` (dnd-utils.jsx lines 165-166). -/
def noteMatch (target : JsVal) (it : NoteItem) : Bool :=
  jsString it.id == jsString target

/-- `NoteDndContext.handleDragEnd` (dnd-utils.jsx lines 161-173): when the
drag ends over a different sortable id, find both indices by stringified id
comparison and, if both are present, hand `arrayMove items oldIndex
newIndex` to the `onReorder` callback (`some list` models the callback
being invoked with `list`; `none` models no call). -/
def noteDragEnd (items : List NoteItem) (activeId : JsVal) (over : Option JsVal) :
    Option (List NoteItem) :=
  match over with
  | none => none
  | some overId =>
    if activeId == overId then none
    else
      match jsFindIndex (noteMatch activeId) items, jsFindIndex (noteMatch overId) items with
      | some oldI, some newI => some (arrayMove items oldI newI)
      | some _, none => none
      | none, _ => none

/- ============ Client data layer: noteService.js ============ -/

/-- A file record as handled by the client: its id and folder foreign key,
both arbitrary JavaScript values until normalized. -/
structure FileRec where
  id : JsVal
  folder_id : JsVal
deriving DecidableEq, Repr

/-- A note record as handled by the client data layer. -/
structure NoteRec where
  id : JsVal
  file_id : JsVal
deriving DecidableEq, Repr

/-- A folder record as handled by the client data layer. -/
structure FolderRec where
  id : JsVal
deriving DecidableEq, Repr

/-- The payload built by `noteService.updateFileOrder` (noteService.js
lines 104-116): `fileIds.map(id => String(id))` before the PUT to
`/api/files/reorder`. -/
def updateFileOrderPayload (fileIds : List JsVal) : List JsVal :=
  fileIds.map (fun i => JsVal.vStr (jsString i))

/-- The payload sent by `noteService.updateNoteOrder` (noteService.js
lines 174-181): the `noteIds` argument is placed in the PUT body to
`/api/notes/reorder` without any conversion. -/
def updateNoteOrderPayload (noteIds : List JsVal) : List JsVal :=
  noteIds

/-- An entity identifier interpolated into a request path by a template
literal, as in `/files/${fileId}` (noteService.js lines 80, 91, 121,
137, 151, 161, 212, 222): a JavaScript template literal coerces the value
with `String()`. -/
def urlPathId (v : JsVal) : JsVal :=
  JsVal.vStr (jsString v)

/-- The `after_note_id` field of the note-creation body (noteService.js
lines 135-141): the `afterNoteId` argument is placed in the POST body
without conversion. -/
def createNoteAfterId (afterNoteId : JsVal) : JsVal :=
  afterNoteId

/-- Per-record normalization applied by the `getAllFiles` wrapper
(noteService.js lines 269-276): `id` becomes `String(file.id)` and
`folder_id` becomes `String(file.folder_id)` when truthy, `null`
otherwise. -/
def normFile (f : FileRec) : FileRec :=
  { id := JsVal.vStr (jsString f.id),
    folder_id := if jsTruthy f.folder_id then JsVal.vStr (jsString f.folder_id) else JsVal.vNull }

/-- Per-record normalization applied by the `getNotes` wrapper
(noteService.js lines 280-287): both `id` and `file_id` are stringified
unconditionally. -/
def normNote (n : NoteRec) : NoteRec :=
  { id := JsVal.vStr (jsString n.id), file_id := JsVal.vStr (jsString n.file_id) }

/-- Per-record normalization applied by the `getFolders` wrapper
(noteService.js lines 291-297). -/
def normFolder (g : FolderRec) : FolderRec :=
  { id := JsVal.vStr (jsString g.id) }

/-- The `getAllFiles` wrapper (noteService.js lines 269-276):
`Array.isArray(data) ? data.map(...) : []`, with `none` modelling a
non-array response payload. -/
def getAllFilesWrap (data : Option (List FileRec)) : List FileRec :=
  match data with
  | none => []
  | some files => files.map normFile

/-- The `getNotes` wrapper (noteService.js lines 280-287). -/
def getNotesWrap (data : Option (List NoteRec)) : List NoteRec :=
  match data with
  | none => []
  | some notes => notes.map normNote

/-- The `getFolders` wrapper (noteService.js lines 291-297). -/
def getFoldersWrap (data : Option (List FolderRec)) : List FolderRec :=
  match data with
  | none => []
  | some folders => folders.map normFolder

/- ============ DOM model for the drag engine (dnd-utils.jsx) ============ -/

/-- The projections of a DOM element that `FileDndContext` reads during
hit-testing: `el.id` (empty string when absent), the data attributes
(`getAttribute` returns `null`, modelled `none`, or a string), the class
name (`none` also covers a non-string `className`), and `textContent`. -/
structure DomElem where
  idAttr : String := ""
  dataIsFolder : Option String := none
  dataFolderId : Option String := none
  dataFolderContent : Option String := none
  dataDroppableId : Option String := none
  dataIsRootArea : Option String := none
  className : Option String := none
  textContent : Option String := none
deriving DecidableEq, Repr

/-- Truthiness of a `getAttribute` result: `null` and the empty string are
falsy. -/
def attrTruthy : Option String → Bool
  | none => false
  | some s => s != ""

/-- The sidebar test of dnd-utils.jsx lines 701-710: a class containing
one of the sidebar markers, or the ids `root-files` / `global-drop-area`. -/
def sidebarPred (el : DomElem) : Bool :=
  (match el.className with
   | some c => jsIncludes c "sidebar" || jsIncludes c "MuiBox-root" ||
       jsIncludes c "MuiDrawer-paper" || jsIncludes c "root-files-area"
   | none => false)
  || el.idAttr == "root-files" || el.idAttr == "global-drop-area"

/-- The bottom-empty-area test of dnd-utils.jsx lines 713-727: root-area
hint text, `data-is-root-area="true"`, or `data-droppable-id="root-area"`. -/
def emptyBottomPred (el : DomElem) : Bool :=
  (match el.textContent with
   | some t => (t != "") && (jsIncludes t "根目录" || jsIncludes t "暂无文件" ||
       jsIncludes t "拖放到此处")
   | none => false)
  || el.dataIsRootArea == some "true"
  || el.dataDroppableId == some "root-area"

/-- The folder-header test of dnd-utils.jsx lines 730-734. -/
def headerPred (el : DomElem) : Bool :=
  (el.idAttr != "" && jsStartsWith el.idAttr "folder-" && !(jsIncludes el.idAttr "content"))
  || (el.dataIsFolder == some "true" && !(attrTruthy el.dataFolderContent))
  || (attrTruthy el.dataDroppableId && jsStartsWith (el.dataDroppableId.getD "") "folder-")

/-- The folder-content test of dnd-utils.jsx lines 736-739. -/
def contentPred (el : DomElem) : Bool :=
  (el.idAttr != "" && jsIncludes el.idAttr "folder-content-")
  || el.dataFolderContent == some "true"

/-- The droppable-region test of dnd-utils.jsx lines 742-746: a truthy
`data-droppable-id` equal to `root-area` or starting with `folder-`. -/
def droppablePred (el : DomElem) : Bool :=
  attrTruthy el.dataDroppableId &&
  (jsStartsWith (el.dataDroppableId.getD "") "folder-" || el.dataDroppableId == some "root-area")

/-- The root-area test of dnd-utils.jsx lines 756-758. -/
def rootAreaPred (el : DomElem) : Bool :=
  el.idAttr == "root-files" || el.dataIsRootArea == some "true"

/-- The test `el.getAttribute('data-is-folder') === 'true'` used at
dnd-utils.jsx line 910. -/
def folderTruePred (el : DomElem) : Bool :=
  el.dataIsFolder == some "true"

/-- `String(draggedFile.folder_id || '')` (dnd-utils.jsx line 751). -/
def originalFolderOf (f : FileRec) : String :=
  if jsTruthy f.folder_id then jsString f.folder_id else ""

/-- The root-state test of dnd-utils.jsx lines 930-931: `folder_id` is
`null`, `undefined`, `0`, `'0'` or `''`. -/
def isSourceRoot (f : FileRec) : Bool :=
  f.folder_id == JsVal.vNull || f.folder_id == JsVal.vUndefined ||
  f.folder_id == JsVal.vNum 0 || f.folder_id == JsVal.vStr "0" ||
  f.folder_id == JsVal.vStr ""

/-- Folder id extraction for a content element (dnd-utils.jsx lines
863-864): `getAttribute('data-folder-id') || id.replace('folder-content-', '')`. -/
def contentFolderIdOf (ce : DomElem) : String :=
  if attrTruthy ce.dataFolderId then ce.dataFolderId.getD ""
  else replaceFirst ce.idAttr "folder-content-"

/-- Folder id extraction for a header element (dnd-utils.jsx lines
882-884): data attribute, then optional-chained droppable id, then the
element id, each used only when truthy. -/
def headerFolderIdOf (he : DomElem) : String :=
  if attrTruthy he.dataFolderId then he.dataFolderId.getD ""
  else
    let viaDroppable : String :=
      match he.dataDroppableId with
      | some s => replaceFirst s "folder-"
      | none => ""
    if viaDroppable != "" then viaDroppable
    else replaceFirst he.idAttr "folder-"

/- ============ FileDndContext.handleDragEnd (dnd-utils.jsx 647-983) ============ -/

/-- The externally observable outcome of a file drag-end: an early abort
(no drop target reported, or the dragged file is unknown), a skip (same
location, no `onMoveToFolder` call), or a call
`onMoveToFolder(fileId, target)` where `none` targets the root. -/
inductive MoveAction where
  | aborted
  | skipped
  | moved (fileId : String) (target : Option String)
deriving DecidableEq, Repr

/-- The lookup `files.find(file => String(file.id) === String(active.id))`
(dnd-utils.jsx line 659). -/
def fileMatch (activeId : JsVal) (f : FileRec) : Bool :=
  jsString f.id == jsString activeId

/-- The droppable branch of dnd-utils.jsx lines 838-859: `root-area`
targets the root; a `folder-` id is stripped and compared with the
original folder id. -/
def droppableTarget (original : String) (de : DomElem) : Option String × Bool :=
  let did := de.dataDroppableId.getD ""
  if did == "root-area" then (none, false)
  else if jsStartsWith did "folder-" then
    let f := replaceFirst did "folder-"
    (some f, f == original)
  else (none, false)

/-- The target / same-folder pair computed by the main hit-testing path of
`handleDragEnd` (dnd-utils.jsx lines 826-921).  The source initializes
`targetFolderId = null`, so the two `targetFolderId === undefined` guards
(lines 917-920 and 927) can never fire and are omitted; the assignment at
lines 902-905 writes `null` only when the value is already `null` and is
likewise a no-op. -/
def mainTargetPair (original : String) (els : List DomElem) : Option String × Bool :=
  if els.any emptyBottomPred && els.any sidebarPred then (none, false)
  else
    let p0 : Option String × Bool :=
      match els.find? droppablePred with
      | some de => droppableTarget original de
      | none =>
        match els.find? contentPred with
        | some ce => (some (contentFolderIdOf ce), contentFolderIdOf ce == original)
        | none =>
          match els.find? headerPred with
          | some he => (some (headerFolderIdOf he), headerFolderIdOf he == original)
          | none => (none, false)
    if p0.2 && els.any sidebarPred && !(els.any folderTruePred) then (none, false) else p0

/-- The final move decision of dnd-utils.jsx lines 927-958: a root target
is the same location when the source `folder_id` is any root-equivalent
value; a folder target is compared by `String(targetFolderId) ===
String(draggedFile.folder_id)`. -/
def finishMove (activeId : JsVal) (df : FileRec) (target : Option String) : MoveAction :=
  match target with
  | none => if isSourceRoot df then .skipped else .moved (jsString activeId) none
  | some t => if t == jsString df.folder_id then .skipped else .moved (jsString activeId) (some t)

/-- The hover-override branch of dnd-utils.jsx lines 763-800: when the
tracked hovered folder equals `String(folder_id || '')` the move is
skipped unless the pointer is over a sidebar area with no folder-content
and no folder-header element (then the file is moved to the root);
otherwise the file is moved to the hovered folder. -/
def hoverBranch (activeId : JsVal) (df : FileRec) (hov : String) (els : List DomElem) :
    MoveAction :=
  if hov == originalFolderOf df then
    if els.any sidebarPred && (els.find? contentPred).isNone && (els.find? headerPred).isNone
    then .moved (jsString activeId) none
    else .skipped
  else .moved (jsString activeId) (some hov)

/-- The body of `handleDragEnd` after the dragged file has been located:
hover override first (dnd-utils.jsx line 763), then the sidebar root-area
branch (line 803, where only a strictly `null` `folder_id` suppresses the
move), then the main hit-testing path. -/
def fileDragEndCore (activeId : JsVal) (df : FileRec) (hover : Option String)
    (els : List DomElem) : MoveAction :=
  if attrTruthy hover then hoverBranch activeId df (hover.getD "") els
  else if els.any sidebarPred && (els.find? rootAreaPred).isSome then
    if df.folder_id == JsVal.vNull then .skipped else .moved (jsString activeId) none
  else finishMove activeId df (mainTargetPair (originalFolderOf df) els).1

/-- The input of a file drag-end: whether the drag library reported a drop
target (`over`), the active id, the known file list, the tracked hovered
folder id state, and the element stack under the pointer. -/
structure FileDragEndInput where
  hasOver : Bool
  activeId : JsVal
  files : List FileRec
  hoverFolderId : Option String
  elems : List DomElem
deriving Repr

/-- `FileDndContext.handleDragEnd` (dnd-utils.jsx lines 647-983) as a
function from the drag-end input to the move decision. -/
def fileDragEnd (inp : FileDragEndInput) : MoveAction :=
  if !inp.hasOver then .aborted
  else
    match inp.files.find? (fileMatch inp.activeId) with
    | none => .aborted
    | some df => fileDragEndCore inp.activeId df inp.hoverFolderId inp.elems

/- ===== Folder highlight state (dnd-utils.jsx 220-298, 459-531, 985-998) ===== -/

/-- A folder-related DOM node as touched by the highlight logic: which
folder it belongs to, whether it is the content region (as opposed to the
header), whether its computed style displays it, and whether drag
highlight styles are currently applied to it. -/
structure FolderNode where
  folderId : String
  isContent : Bool
  displayed : Bool := true
  highlighted : Bool := false
deriving DecidableEq, Repr

/-- `clearAllFolderHighlights` (dnd-utils.jsx lines 220-235): resets the
highlight styles of every folder element. -/
def clearAllFolderHighlights (dom : List FolderNode) : List FolderNode :=
  dom.map (fun n => { n with highlighted := false })

/-- `document.querySelector` followed by a style write: mark the first
node satisfying `p` as highlighted, leaving the rest unchanged. -/
def markFirst (p : FolderNode → Bool) : List FolderNode → List FolderNode
  | [] => []
  | n :: rest => if p n then { n with highlighted := true } :: rest else n :: markFirst p rest

/-- Selector `#folder-{id}`: the header node of folder `fid`. -/
def headerNodePred (fid : String) (n : FolderNode) : Bool :=
  !n.isContent && n.folderId == fid

/-- Selector `#folder-content-{id}`: the content node of folder `fid`. -/
def contentNodePred (fid : String) (n : FolderNode) : Bool :=
  n.isContent && n.folderId == fid

/-- `highlightFolderElement` (dnd-utils.jsx lines 237-298): a falsy folder
id is rejected up front; otherwise all folder highlights are cleared, the
folder's expansion state is read from its content node's computed display,
and then either only the header (collapsed or header-only mode) or both
header and content (expanded mode) are highlighted. -/
def highlightFolderElement (fid : String) (headerOnly : Bool) (dom : List FolderNode) :
    List FolderNode :=
  if fid == "" then dom
  else
    let cleared := clearAllFolderHighlights dom
    let isFolderExpanded : Bool :=
      match cleared.find? (contentNodePred fid) with
      | some c => c.displayed
      | none => false
    if headerOnly || !isFolderExpanded then
      markFirst (headerNodePred fid) cleared
    else
      markFirst (contentNodePred fid) (markFirst (headerNodePred fid) cleared)

/-- The component state of `FileDndContext` that the drag handlers mutate,
together with the folder nodes whose styles they rewrite. -/
structure DragUiState where
  activeFileId : Option String := none
  hoverFolderId : Option String := none
  isDragging : Bool := false
  dragStartTime : Option Nat := none
  dom : List FolderNode := []
deriving DecidableEq, Repr

/-- `cleanupDragState` (dnd-utils.jsx lines 459-531): resets every piece
of drag state and clears all folder highlights. -/
def cleanupDragState (s : DragUiState) : DragUiState :=
  { activeFileId := none, hoverFolderId := none, isDragging := false, dragStartTime := none,
    dom := clearAllFolderHighlights s.dom }

/-- The watchdog effect (dnd-utils.jsx lines 985-998): armed only while
`isDragging` with a truthy `dragStartTime`; when it fires at time `now`
with the drag still older than 10000 ms it runs `cleanupDragState` and
invokes no callback (the second component lists the `onMoveToFolder` /
`onReorder` calls issued by this code path: there are none). -/
def watchdogFire (s : DragUiState) (now : Nat) : DragUiState × List MoveAction :=
  match s.dragStartTime with
  | none => (s, [])
  | some t0 =>
    if s.isDragging && now - t0 > 10000 then (cleanupDragState s, []) else (s, [])

/- ===== FileDndContext.handleDragOver (dnd-utils.jsx 574-644) ===== -/

/-- JavaScript numbers as they reach the drag-over guard: possibly
undefined (before `?? 0`), NaN, an infinity, or a finite value. -/
inductive JsNum where
  | undef
  | nan
  | posInf
  | negInf
  | fin (q : Int)
deriving DecidableEq, Repr

/-- The nullish coalescing `event.clientX ?? 0`. -/
def coalesceZero : JsNum → JsNum
  | .undef => .fin 0
  | v => v

/-- JavaScript `isFinite` on the modelled numbers. -/
def isFiniteJs : JsNum → Bool
  | .fin _ => true
  | _ => false

/-- The folder hit-test of dnd-utils.jsx lines 612-615. -/
def dragFolderPred (el : DomElem) : Bool :=
  el.dataIsFolder == some "true" || attrTruthy el.dataFolderId

/-- The root-area hit-test of dnd-utils.jsx lines 625-632. -/
def dragOverRootPred (el : DomElem) : Bool :=
  el.idAttr == "root-files" || el.dataIsRootArea == some "true" ||
  (match el.className with
   | some c => jsIncludes c "sidebar" || jsIncludes c "root-files-area"
   | none => false)

/-- `FileDndContext.handleDragOver` (dnd-utils.jsx lines 574-644): after
`?? 0` coalescing, non-finite coordinates abort the handler before any
hit-testing; otherwise the first folder element under the pointer (when
its folder id is truthy and differs from the tracked one) is highlighted,
and leaving all folder elements clears the highlight and the tracked id. -/
def handleDragOver (clientX clientY : JsNum) (els : List DomElem) (s : DragUiState) :
    DragUiState :=
  if !(isFiniteJs (coalesceZero clientX)) || !(isFiniteJs (coalesceZero clientY)) then s
  else
    match els.find? dragFolderPred with
    | some fe =>
      let fid := fe.dataFolderId.getD ""
      if attrTruthy fe.dataFolderId && (some fid != s.hoverFolderId) then
        { s with dom := highlightFolderElement fid false s.dom, hoverFolderId := some fid }
      else s
    | none =>
      if els.any dragOverRootPred && attrTruthy s.hoverFolderId then
        { s with dom := clearAllFolderHighlights s.dom, hoverFolderId := none }
      else if attrTruthy s.hoverFolderId then
        { s with dom := clearAllFolderHighlights s.dom, hoverFolderId := none }
      else s

/- ===== Spec-modelled backend and optimistic controller ===== -/

/-- A persisted entity row with its order column, as the reorder endpoint
sees it. -/
structure OrderedEntity where
  id : String
  containerId : Option String
  sortOrder : Nat
deriving DecidableEq, Repr

/-- No identifier occurs twice in the list. -/
def nodupIds : List String → Bool
  | [] => true
  | x :: xs => !(xs.contains x) && nodupIds xs

/-- The identifiers of the entities that belong to container `cid`. -/
def scopeIdList (ents : List OrderedEntity) (cid : Option String) : List String :=
  (ents.filter (fun e => e.containerId == cid)).map (fun e => e.id)

/-- Modelled from the spec: the Flask reorder endpoints (`routes/files.py`
and `routes/notes.py`, PUT `/api/files/reorder` and `/api/notes/reorder`)
are not among the provided sources.  Per spec section 4.2 the endpoint
accepts an ordered list of entity identifiers scoped to one container,
responds success only if every identifier belongs to that container and
all are present exactly once, and rewrites each entity's order column to
its index in the supplied list.  `none` models a rejected request. -/
def reorderEndpoint (ents : List OrderedEntity) (cid : Option String) (ids : List String) :
    Option (List OrderedEntity) :=
  if nodupIds ids && ids.all (fun i => (scopeIdList ents cid).contains i) &&
      (scopeIdList ents cid).all (fun i => ids.contains i) then
    some (ents.map (fun e =>
      if e.containerId == cid then { e with sortOrder := ids.indexOf e.id } else e))
  else none

/-- An in-flight optimistic mutation: the last known-good client state and
the optimistically rendered one. -/
structure OptimisticSession (α : Type) where
  lastGood : α
  current : α
deriving DecidableEq, Repr

/-- Outcome of the persistence call backing an optimistic mutation. -/
inductive NetOutcome where
  | ok
  | rejected
deriving DecidableEq, Repr

/-- What the user sees once the network call settles: the client-visible
state and whether a failure was surfaced. -/
structure SettleResult (α : Type) where
  visible : α
  failureSurfaced : Bool
deriving DecidableEq, Repr

/-- Modelled from the spec: the optimistic-update controller (App.jsx and
the frontend hooks directory) is not among the provided sources.  Per spec
section 4.1, on drag-end resolution the engine renders the mutated state
immediately while remembering the pre-drag state. -/
def beginOptimistic (prev target : α) : OptimisticSession α :=
  { lastGood := prev, current := target }

/-- Modelled from the spec: continuation of the missing optimistic-update
controller.  Per spec section 4.1, if the network call rejects the engine
reverts the local mutation to the last known-good state and surfaces the
failure; on success the optimistic state becomes authoritative. -/
def settleOptimistic (s : OptimisticSession α) : NetOutcome → SettleResult α
  | .ok => { visible := s.current, failureSurfaced := false }
  | .rejected => { visible := s.lastGood, failureSurfaced := true }

/- ============ Helper lemmas ============ -/

theorem clearAll_not_highlighted (dom : List FolderNode) :
    ∀ n ∈ clearAllFolderHighlights dom, n.highlighted = false := by
  intro n hn
  simp only [clearAllFolderHighlights, List.mem_map] at hn
  obtain ⟨m, _, rfl⟩ := hn
  rfl

theorem mem_markFirst (p : FolderNode → Bool) :
    ∀ (l : List FolderNode) (n : FolderNode), n ∈ markFirst p l →
      n ∈ l ∨ ∃ m ∈ l, p m = true ∧ n = { m with highlighted := true } := by
  intro l
  induction l with
  | nil => intro n hn; simp [markFirst] at hn
  | cons x xs ih =>
    intro n hn
    by_cases hpx : p x = true
    · simp only [markFirst, hpx, if_pos] at hn
      rcases List.mem_cons.mp hn with h | h
      · exact Or.inr ⟨x, List.mem_cons_self x xs, hpx, h⟩
      · exact Or.inl (List.mem_cons_of_mem x h)
    · simp only [markFirst, hpx, if_neg, Bool.false_eq_true, not_false_eq_true] at hn
      rcases List.mem_cons.mp hn with h | h
      · exact Or.inl (h ▸ List.mem_cons_self x xs)
      · rcases ih n h with h2 | ⟨m, hm, hpm, hnm⟩
        · exact Or.inl (List.mem_cons_of_mem x h2)
        · exact Or.inr ⟨m, List.mem_cons_of_mem x hm, hpm, hnm⟩

theorem markFirst_highlighted_folder (p : FolderNode → Bool) (fid : String)
    (hp : ∀ m, p m = true → m.folderId = fid) :
    ∀ (l : List FolderNode), (∀ n ∈ l, n.highlighted = true → n.folderId = fid) →
      ∀ n ∈ markFirst p l, n.highlighted = true → n.folderId = fid := by
  intro l hl n hn hhigh
  rcases mem_markFirst p l n hn with h | ⟨m, _, hpm, rfl⟩
  · exact hl n h hhigh
  · exact hp m hpm

theorem jsFindIndex_get (p : α → Bool) :
    ∀ (l : List α) (i : Nat), jsFindIndex p l = some i →
      ∃ x, l.get? i = some x ∧ p x = true := by
  intro l
  induction l with
  | nil => intro i h; simp [jsFindIndex] at h
  | cons x xs ih =>
    intro i h
    by_cases hpx : p x = true
    · simp only [jsFindIndex, hpx, if_pos, Option.some.injEq] at h
      subst h
      exact ⟨x, rfl, hpx⟩
    · simp only [jsFindIndex, hpx, if_neg, Bool.false_eq_true, not_false_eq_true,
        Option.map_eq_some'] at h
      obtain ⟨j, hj, rfl⟩ := h
      obtain ⟨y, hy, hpy⟩ := ih j hj
      exact ⟨y, by simpa using hy, hpy⟩

theorem filter_insertAt (p : α → Bool) (a : α) (hpa : p a = false) :
    ∀ (n : Nat) (l : List α), (insertAt n a l).filter p = l.filter p := by
  intro n
  induction n with
  | zero => intro l; simp [insertAt, List.filter_cons, hpa]
  | succ n ih =>
    intro l
    cases l with
    | nil => simp [insertAt, List.filter_cons, hpa]
    | cons x xs => simp [insertAt, List.filter_cons, ih xs]

theorem filter_eraseIdx (p : α → Bool) :
    ∀ (l : List α) (i : Nat) (x : α), l.get? i = some x → p x = false →
      (l.eraseIdx i).filter p = l.filter p := by
  intro l
  induction l with
  | nil => intro i x h; simp at h
  | cons y ys ih =>
    intro i x hget hpx
    cases i with
    | zero =>
      simp only [List.get?_cons_zero, Option.some.injEq] at hget
      subst hget
      simp [List.eraseIdx, List.filter_cons, hpx]
    | succ i =>
      simp only [List.get?_cons_succ] at hget
      simp [List.eraseIdx, List.filter_cons, ih i x hget hpx]

theorem nodupIds_nodup : ∀ (l : List String), nodupIds l = true → l.Nodup := by
  intro l
  induction l with
  | nil => intro _; exact List.nodup_nil
  | cons x xs ih =>
    intro h
    simp only [nodupIds, Bool.and_eq_true, Bool.not_eq_true'] at h
    obtain ⟨h1, h2⟩ := h
    refine List.Nodup.cons (fun hmem => ?_) (ih h2)
    have hc : xs.contains x = true := List.elem_iff.mpr hmem
    rw [h1] at hc
    exact Bool.false_ne_true hc

/- ============ C10: list-fetch normalization ============ -/

/-- C10: the list-fetching wrappers always return an array — a non-array
response yields the empty list; an array response is mapped record-wise so
that every returned id is a string; and `getAllFiles` maps a truthy stored
`folder_id` to a string and any falsy one (null, undefined, 0, empty
string) to null. -/
theorem list_fetch_wrappers_normalize :
    (getAllFilesWrap none = [] ∧ getNotesWrap none = [] ∧ getFoldersWrap none = []) ∧
    (∀ l, getAllFilesWrap (some l) = l.map normFile) ∧
    (∀ l, getNotesWrap (some l) = l.map normNote) ∧
    (∀ l, getFoldersWrap (some l) = l.map normFolder) ∧
    (∀ f : FileRec, isStr (normFile f).id = true ∧
      (if jsTruthy f.folder_id then isStr (normFile f).folder_id = true
       else (normFile f).folder_id = JsVal.vNull)) ∧
    (∀ n : NoteRec, isStr (normNote n).id = true ∧ isStr (normNote n).file_id = true) ∧
    (∀ g : FolderRec, isStr (normFolder g).id = true) := by
  refine ⟨⟨rfl, rfl, rfl⟩, fun l => rfl, fun l => rfl, fun l => rfl,
    fun f => ⟨rfl, ?_⟩, fun n => ⟨rfl, rfl⟩, fun g => rfl⟩
  by_cases h : jsTruthy f.folder_id = true
  · simp [h, normFile, isStr]
  · simp only [Bool.not_eq_true] at h
    simp [h, normFile]

/- ============ C2: string identifiers on the REST surface ============ -/

/-- C2 counterexample: two identifier-typed request fields of the data
layer are transmitted exactly as supplied, with no string coercion:
`updateNoteOrder` places the caller's `noteIds` list in the PUT body
verbatim, and `createNote` places `afterNoteId` in the POST body verbatim
— so a numeric identifier reaches the REST surface as a number, not a
string, refuting the claim that every identifier sent by the data layer
is a string. -/
theorem note_reorder_payload_keeps_numbers :
    updateNoteOrderPayload [JsVal.vNum 7] = [JsVal.vNum 7] ∧
    (updateNoteOrderPayload [JsVal.vNum 7]).all isStr = false ∧
    createNoteAfterId (JsVal.vNum 7) = JsVal.vNum 7 ∧
    isStr (createNoteAfterId (JsVal.vNum 7)) = false :=
  ⟨rfl, rfl, rfl, rfl⟩

/-- C2 amended: for every entity identifier sent over the REST surface by
the client data layer — except the id list passed to the note-reorder
call and the `after_note_id` field of note creation, both of which are
transmitted exactly as supplied by the caller — and for every identifier
comparison performed by the client, the identifier is represented as a
string, regardless of how the server stores it.  Sent: path-interpolated
ids and the file-reorder list are `String()`-coerced and the list-fetch
responses are normalized to string ids (so client state holds strings).
Compared: the drag-engine id comparisons (`noteMatch`, `fileMatch`) are
exactly equality of the `String()` images, hence cannot distinguish two
identifiers with the same string form, whatever their storage types. -/
theorem client_string_id_discipline :
    (∀ ids : List JsVal, (updateFileOrderPayload ids).all isStr = true) ∧
    (∀ v : JsVal, isStr (urlPathId v) = true) ∧
    (∀ data, (getAllFilesWrap data).all (fun f => isStr f.id) = true) ∧
    (∀ data, (getNotesWrap data).all (fun n => isStr n.id && isStr n.file_id) = true) ∧
    (∀ data, (getFoldersWrap data).all (fun g => isStr g.id) = true) ∧
    (∀ ids : List JsVal, updateNoteOrderPayload ids = ids) ∧
    (∀ v : JsVal, createNoteAfterId v = v) ∧
    (∀ (a : JsVal) (it : NoteItem), noteMatch a it = (jsString it.id == jsString a)) ∧
    (∀ (a : JsVal) (f : FileRec), fileMatch a f = (jsString f.id == jsString a)) ∧
    (∀ (a b : JsVal) (items : List NoteItem), jsString a = jsString b →
      jsFindIndex (noteMatch a) items = jsFindIndex (noteMatch b) items) ∧
    (∀ (a b : JsVal) (files : List FileRec), jsString a = jsString b →
      files.find? (fileMatch a) = files.find? (fileMatch b)) := by
  refine ⟨fun ids => ?_, fun v => rfl, fun data => ?_, fun data => ?_, fun data => ?_,
    fun ids => rfl, fun v => rfl, fun a it => rfl, fun a f => rfl,
    fun a b items h => ?_, fun a b files h => ?_⟩
  · simp [updateFileOrderPayload, List.all_map, Function.comp, isStr]
  · cases data with
    | none => rfl
    | some l => simp [getAllFilesWrap, List.all_map, Function.comp, normFile, isStr]
  · cases data with
    | none => rfl
    | some l => simp [getNotesWrap, List.all_map, Function.comp, normNote, isStr]
  · cases data with
    | none => rfl
    | some l => simp [getFoldersWrap, List.all_map, Function.comp, normFolder, isStr]
  · have hfun : noteMatch a = noteMatch b := funext fun it => by simp [noteMatch, h]
    rw [hfun]
  · have hfun : fileMatch a = fileMatch b := funext fun f => by simp [fileMatch, h]
    rw [hfun]

/-- Witness for C2 amended: a numeric identifier and its string form are
indistinguishable to the note drag-engine lookup. -/
theorem client_string_id_discipline_witness :
    jsFindIndex (noteMatch (JsVal.vNum 7)) [⟨JsVal.vStr "7"⟩]
      = jsFindIndex (noteMatch (JsVal.vStr "7")) [⟨JsVal.vStr "7"⟩] :=
  client_string_id_discipline.2.2.2.2.2.2.2.2.2.1 (JsVal.vNum 7) (JsVal.vStr "7")
    [⟨JsVal.vStr "7"⟩] (by decide)

/- ============ C5: optimistic update and rollback ============ -/

/-- C5: when the persistence call backing an optimistic mutation rejects,
the settled client-visible state equals the pre-drag state and the failure
is surfaced; stated both for a reorder (the optimistic state is an
`arrayMove` of the pre-drag list) and for a container move (the optimistic
state is any mutated file list). -/
theorem optimistic_rollback_restores_state :
    (∀ (notes : List NoteItem) (oldI newI : Nat),
      settleOptimistic (beginOptimistic notes (arrayMove notes oldI newI)) NetOutcome.rejected
        = { visible := notes, failureSurfaced := true }) ∧
    (∀ (files mutated : List FileRec),
      settleOptimistic (beginOptimistic files mutated) NetOutcome.rejected
        = { visible := files, failureSurfaced := true }) :=
  ⟨fun _ _ _ => rfl, fun _ _ => rfl⟩

/- ============ C9: non-finite drag-over coordinates ============ -/

/-- C9: a drag-move event whose coalesced pointer coordinates are not
finite (NaN or an infinity) is ignored: `handleDragOver` returns the state
unchanged, so no hit-testing result is applied, no highlight changes, and
the tracked hovered-folder id is kept. -/
theorem drag_over_nonfinite_ignored :
    ∀ (x y : JsNum) (els : List DomElem) (s : DragUiState),
      (isFiniteJs (coalesceZero x) = false ∨ isFiniteJs (coalesceZero y) = false) →
      handleDragOver x y els s = s := by
  intro x y els s h
  unfold handleDragOver
  rcases h with h | h <;> simp [h]

/-- Witness for C9 at a concrete NaN abscissa. -/
theorem drag_over_nonfinite_ignored_witness :
    handleDragOver JsNum.nan (JsNum.fin 5)
        [{ dataFolderId := some "1" }]
        { hoverFolderId := some "2" }
      = { hoverFolderId := some "2" } :=
  drag_over_nonfinite_ignored JsNum.nan (JsNum.fin 5) _ _ (Or.inl rfl)

/- ============ C7: single highlighted folder ============ -/

/-- C7: `highlightFolderElement` first clears every folder highlight and
only then applies the new one, so after any (non-falsy) highlight call
every highlighted node belongs to the requested folder and no two
highlighted nodes belong to different folders. -/
theorem highlight_single_folder_invariant :
    ∀ (fid : String) (headerOnly : Bool) (dom : List FolderNode),
      fid ≠ "" →
      (∀ n ∈ highlightFolderElement fid headerOnly dom,
        n.highlighted = true → n.folderId = fid) ∧
      (∀ n ∈ highlightFolderElement fid headerOnly dom,
        ∀ m ∈ highlightFolderElement fid headerOnly dom,
          n.highlighted = true → m.highlighted = true → n.folderId = m.folderId) := by
  intro fid headerOnly dom hfid
  have hbeq : (fid == "") = false := beq_eq_false_iff_ne.mpr hfid
  have hcleared : ∀ n ∈ clearAllFolderHighlights dom, n.highlighted = true → n.folderId = fid := by
    intro n hn hh
    rw [clearAll_not_highlighted dom n hn] at hh
    exact absurd hh (by simp)
  have hhead : ∀ m, headerNodePred fid m = true → m.folderId = fid := by
    intro m hm
    simp only [headerNodePred, Bool.and_eq_true] at hm
    exact eq_of_beq hm.2
  have hcont : ∀ m, contentNodePred fid m = true → m.folderId = fid := by
    intro m hm
    simp only [contentNodePred, Bool.and_eq_true] at hm
    exact eq_of_beq hm.2
  have hmain : ∀ n ∈ highlightFolderElement fid headerOnly dom,
      n.highlighted = true → n.folderId = fid := by
    unfold highlightFolderElement
    rw [hbeq]
    simp only [Bool.false_eq_true, if_false]
    by_cases hexp : (headerOnly ||
        !(match (clearAllFolderHighlights dom).find? (contentNodePred fid) with
          | some c => c.displayed
          | none => false)) = true
    · rw [if_pos hexp]
      exact markFirst_highlighted_folder _ fid hhead _ hcleared
    · rw [if_neg hexp]
      exact markFirst_highlighted_folder _ fid hcont _
        (markFirst_highlighted_folder _ fid hhead _ hcleared)
  refine ⟨hmain, fun n hn m hm hhn hhm => ?_⟩
  rw [hmain n hn hhn, hmain m hm hhm]

/-- Witness for C7: highlighting folder `2` while folder `1` is
highlighted clears folder `1` and leaves only the folder `2` header
highlighted; the invariant instantiated at that highlighted node gives its
folder id. -/
theorem highlight_single_folder_invariant_witness :
    highlightFolderElement "2" false
        [{ folderId := "1", isContent := false, highlighted := true },
         { folderId := "2", isContent := false }]
      = [{ folderId := "1", isContent := false, displayed := true, highlighted := false },
         { folderId := "2", isContent := false, displayed := true, highlighted := true }] ∧
    ({ folderId := "2", isContent := false, displayed := true, highlighted := true }
        : FolderNode).folderId = "2" :=
  ⟨by decide,
   (highlight_single_folder_invariant "2" false
      [{ folderId := "1", isContent := false, highlighted := true },
       { folderId := "2", isContent := false }] (by decide)).1
     { folderId := "2", isContent := false, displayed := true, highlighted := true }
     (by decide) rfl⟩

/- ============ C8: drag watchdog ============ -/

/-- C8: when a drag is still active more than 10000 ms after its start
time, the watchdog performs the full `cleanupDragState` — drag flags,
active file, tracked hovered folder and start time reset, every folder
highlight cleared — and issues no move or reorder call. -/
theorem drag_watchdog_clears_state :
    ∀ (s : DragUiState) (now t0 : Nat),
      s.isDragging = true → s.dragStartTime = some t0 → now - t0 > 10000 →
      watchdogFire s now = (cleanupDragState s, []) ∧
      (watchdogFire s now).1.isDragging = false ∧
      (watchdogFire s now).1.activeFileId = none ∧
      (watchdogFire s now).1.hoverFolderId = none ∧
      (watchdogFire s now).1.dragStartTime = none ∧
      (∀ n ∈ (watchdogFire s now).1.dom, n.highlighted = false) ∧
      (watchdogFire s now).2 = [] := by
  intro s now t0 hd ht hgt
  have hfire : watchdogFire s now = (cleanupDragState s, []) := by
    unfold watchdogFire
    rw [ht]
    simp [hd, hgt]
  refine ⟨hfire, ?_, ?_, ?_, ?_, ?_, ?_⟩ <;> rw [hfire] <;>
    first
      | rfl
      | exact fun n hn => clearAll_not_highlighted s.dom n hn

/-- Witness for C8: a drag started at time 0 and still alive at 20000 ms
is fully cleaned up. -/
theorem drag_watchdog_clears_state_witness :
    watchdogFire
        { isDragging := true, dragStartTime := some 0, activeFileId := some "f1",
          hoverFolderId := some "1",
          dom := [{ folderId := "1", isContent := false, highlighted := true }] } 20000
      = (cleanupDragState
          { isDragging := true, dragStartTime := some 0, activeFileId := some "f1",
            hoverFolderId := some "1",
            dom := [{ folderId := "1", isContent := false, highlighted := true }] }, []) :=
  (drag_watchdog_clears_state _ 20000 0 rfl rfl (by decide)).1

/- ============ C6: note-list reorder ============ -/

/-- C6: when a note drag ends over a different item and both the dragged
and the target string ids are found in the list, the `onReorder` callback
receives exactly `arrayMove items oldIndex newIndex` — the original list
with the dragged item removed from its old index and re-inserted at the
target index — and every item other than the dragged one keeps its
relative order (their filtered subsequence is unchanged). -/
theorem note_drag_reorder_moves_item :
    ∀ (items : List NoteItem) (activeId overId : JsVal) (oldI newI : Nat),
      (activeId == overId) = false →
      jsFindIndex (noteMatch activeId) items = some oldI →
      jsFindIndex (noteMatch overId) items = some newI →
      noteDragEnd items activeId (some overId) = some (arrayMove items oldI newI) ∧
      (arrayMove items oldI newI).filter (fun it => !(noteMatch activeId it))
        = items.filter (fun it => !(noteMatch activeId it)) := by
  intro items a o oldI newI hne h1 h2
  constructor
  · simp only [noteDragEnd, hne, Bool.false_eq_true, if_false, h1, h2]
  · obtain ⟨x, hget, hpx⟩ := jsFindIndex_get _ items oldI h1
    have hmove : arrayMove items oldI newI = insertAt newI x (items.eraseIdx oldI) := by
      unfold arrayMove
      rw [hget]
    have hfx : (fun it => !(noteMatch a it)) x = false := by simp [hpx]
    rw [hmove, filter_insertAt _ x hfx newI _, filter_eraseIdx _ items oldI x hget hfx]

/-- Witness for C6, the spec scenario: list `[A, B, C]`, `C` dragged to
before `A`; the reorder callback receives `[C, A, B]`. -/
theorem note_drag_reorder_moves_item_witness :
    noteDragEnd [⟨.vStr "A"⟩, ⟨.vStr "B"⟩, ⟨.vStr "C"⟩] (.vStr "C") (some (.vStr "A"))
      = some [⟨.vStr "C"⟩, ⟨.vStr "A"⟩, ⟨.vStr "B"⟩] := by
  have h := note_drag_reorder_moves_item [⟨.vStr "A"⟩, ⟨.vStr "B"⟩, ⟨.vStr "C"⟩]
    (.vStr "C") (.vStr "A") 2 0 (by decide) (by decide) (by decide)
  rw [h.1]
  decide

/- ============ C1: reorder persistence endpoint ============ -/

/-- C1: a successful reorder call implies the submitted id list has no
duplicates and every submitted id belongs to an entity of the addressed
container; afterwards the id and container columns of every row are
unchanged (so the set of item ids in the container is unchanged), and each
entity of the container has its order column equal to the index of its id
in the submitted list. -/
theorem reorder_endpoint_contract :
    ∀ (ents ents2 : List OrderedEntity) (cid : Option String) (ids : List String),
      reorderEndpoint ents cid ids = some ents2 →
      ids.Nodup ∧
      (∀ i ∈ ids, ∃ e ∈ ents, e.containerId = cid ∧ e.id = i) ∧
      ents2.map (fun e => e.id) = ents.map (fun e => e.id) ∧
      ents2.map (fun e => e.containerId) = ents.map (fun e => e.containerId) ∧
      (∀ e2 ∈ ents2, e2.containerId = cid →
        e2.sortOrder = ids.indexOf e2.id ∧ ids.get? e2.sortOrder = some e2.id) := by
  intro ents ents2 cid ids h
  unfold reorderEndpoint at h
  by_cases hcond : (nodupIds ids && ids.all (fun i => (scopeIdList ents cid).contains i) &&
      (scopeIdList ents cid).all (fun i => ids.contains i)) = true
  swap
  · rw [if_neg hcond] at h
    exact absurd h (by simp)
  rw [if_pos hcond] at h
  injection h with h2
  simp only [Bool.and_eq_true] at hcond
  obtain ⟨⟨hnodup, hallids⟩, hallscope⟩ := hcond
  have hscope_sub : ∀ i ∈ ids, i ∈ scopeIdList ents cid := by
    intro i hi
    exact List.elem_iff.mp (List.all_eq_true.mp hallids i hi)
  have hids_sub : ∀ i ∈ scopeIdList ents cid, i ∈ ids := by
    intro i hi
    exact List.elem_iff.mp (List.all_eq_true.mp hallscope i hi)
  refine ⟨nodupIds_nodup ids hnodup, ?_, ?_, ?_, ?_⟩
  · intro i hi
    have hmem := hscope_sub i hi
    simp only [scopeIdList, List.mem_map, List.mem_filter] at hmem
    obtain ⟨e, ⟨hemem, hbeq⟩, hid⟩ := hmem
    exact ⟨e, hemem, beq_iff_eq.mp hbeq, hid⟩
  · rw [← h2, List.map_map]
    apply List.map_congr_left
    intro e _
    simp only [Function.comp_apply]
    split <;> rfl
  · rw [← h2, List.map_map]
    apply List.map_congr_left
    intro e _
    simp only [Function.comp_apply]
    split <;> rfl
  · intro e2 he2 hcid2
    rw [← h2] at he2
    simp only [List.mem_map] at he2
    obtain ⟨e, hemem, hfe⟩ := he2
    by_cases hb : (e.containerId == cid) = true
    · rw [if_pos hb] at hfe
      subst hfe
      have hidmem : e.id ∈ ids := by
        apply hids_sub
        simp only [scopeIdList, List.mem_map, List.mem_filter]
        exact ⟨e, ⟨hemem, hb⟩, rfl⟩
      exact ⟨rfl, List.indexOf_get? hidmem⟩
    · rw [if_neg hb] at hfe
      subst hfe
      exact absurd (beq_iff_eq.mpr hcid2) hb

/-- Witness for C1: reordering container `c`, which holds entities `a`
(order 5) and `b` (order 0), with the list `[b, a]` succeeds and rewrites
the order columns to `b = 0`, `a = 1`, leaving the unrelated root entity
`x` untouched. -/
theorem reorder_endpoint_contract_witness :
    reorderEndpoint
        [⟨"a", some "c", 5⟩, ⟨"b", some "c", 0⟩, ⟨"x", none, 0⟩] (some "c") ["b", "a"]
      = some [⟨"a", some "c", 1⟩, ⟨"b", some "c", 0⟩, ⟨"x", none, 0⟩] ∧
    (["b", "a"] : List String).Nodup := by
  have h : reorderEndpoint
      [⟨"a", some "c", 5⟩, ⟨"b", some "c", 0⟩, ⟨"x", none, 0⟩] (some "c") ["b", "a"]
      = some [⟨"a", some "c", 1⟩, ⟨"b", some "c", 0⟩, ⟨"x", none, 0⟩] := by decide
  exact ⟨h, (reorder_endpoint_contract _ _ _ _ h).1⟩

/- ============ C3: drop-target resolution priority ============ -/

/-- C3 counterexample: the drag library reports a drop target but the
element stack carries no folder-content, folder-header or root-area marker
and no folder is tracked as hovered; the claim requires an abort with no
state change, yet `handleDragEnd` leaves `targetFolderId` at its `null`
initialization and issues a move of the file to the root container. -/
theorem drag_end_no_marker_moves_to_root :
    fileDragEnd { hasOver := true, activeId := .vStr "f1",
                  files := [{ id := .vStr "f1", folder_id := .vStr "1" }],
                  hoverFolderId := none, elems := [] }
      = MoveAction.moved "f1" none := by decide

/-- C3 amended: drag-end target resolution aborts exactly when the drag
library reports no drop target or the dragged file is unknown; otherwise a
truthy tracked hovered-folder id that differs from the source folder wins
outright; failing that, a sidebar hit with a root-area marker resolves to
the root; failing that, a droppable marker is consulted before a
folder-content marker, which is consulted before a folder-header marker;
and when nothing matches the target defaults to the root container (moving
the file to root unless it is already root-equivalent) instead of
aborting. -/
theorem drag_end_target_resolution_priority :
    (∀ inp : FileDragEndInput, inp.hasOver = false → fileDragEnd inp = MoveAction.aborted) ∧
    (∀ inp : FileDragEndInput, inp.files.find? (fileMatch inp.activeId) = none →
      fileDragEnd inp = MoveAction.aborted) ∧
    (∀ (inp : FileDragEndInput) (df : FileRec) (hov : String),
      inp.hasOver = true →
      inp.files.find? (fileMatch inp.activeId) = some df →
      inp.hoverFolderId = some hov → hov ≠ "" → hov ≠ originalFolderOf df →
      fileDragEnd inp = MoveAction.moved (jsString inp.activeId) (some hov)) ∧
    (∀ (inp : FileDragEndInput) (df : FileRec),
      inp.hasOver = true →
      inp.files.find? (fileMatch inp.activeId) = some df →
      attrTruthy inp.hoverFolderId = false →
      inp.elems.any sidebarPred = true →
      (inp.elems.find? rootAreaPred).isSome = true →
      fileDragEnd inp = (if df.folder_id == JsVal.vNull then MoveAction.skipped
                         else MoveAction.moved (jsString inp.activeId) none)) ∧
    (∀ (inp : FileDragEndInput) (df : FileRec) (de : DomElem),
      inp.hasOver = true →
      inp.files.find? (fileMatch inp.activeId) = some df →
      attrTruthy inp.hoverFolderId = false →
      inp.elems.any sidebarPred = false →
      inp.elems.find? droppablePred = some de →
      fileDragEnd inp
        = finishMove inp.activeId df (droppableTarget (originalFolderOf df) de).1) ∧
    (∀ (inp : FileDragEndInput) (df : FileRec) (ce : DomElem),
      inp.hasOver = true →
      inp.files.find? (fileMatch inp.activeId) = some df →
      attrTruthy inp.hoverFolderId = false →
      inp.elems.any sidebarPred = false →
      inp.elems.find? droppablePred = none →
      inp.elems.find? contentPred = some ce →
      fileDragEnd inp = finishMove inp.activeId df (some (contentFolderIdOf ce))) ∧
    (∀ (inp : FileDragEndInput) (df : FileRec) (he : DomElem),
      inp.hasOver = true →
      inp.files.find? (fileMatch inp.activeId) = some df →
      attrTruthy inp.hoverFolderId = false →
      inp.elems.any sidebarPred = false →
      inp.elems.find? droppablePred = none →
      inp.elems.find? contentPred = none →
      inp.elems.find? headerPred = some he →
      fileDragEnd inp = finishMove inp.activeId df (some (headerFolderIdOf he))) ∧
    (∀ (inp : FileDragEndInput) (df : FileRec),
      inp.hasOver = true →
      inp.files.find? (fileMatch inp.activeId) = some df →
      attrTruthy inp.hoverFolderId = false →
      inp.elems = [] →
      fileDragEnd inp = (if isSourceRoot df then MoveAction.skipped
                         else MoveAction.moved (jsString inp.activeId) none)) := by
  refine ⟨?_, ?_, ?_, ?_, ?_, ?_, ?_, ?_⟩
  · intro inp h
    simp [fileDragEnd, h]
  · intro inp h
    by_cases hb : inp.hasOver = true <;> simp [fileDragEnd, hb, h]
  · intro inp df hov h1 h2 h3 h4 h5
    have hbne : (hov != "") = true := bne_iff_ne.mpr h4
    have hbeq : (hov == originalFolderOf df) = false := beq_eq_false_iff_ne.mpr h5
    simp [fileDragEnd, fileDragEndCore, hoverBranch, h1, h2, h3, attrTruthy, hbne, hbeq]
  · intro inp df h1 h2 h3 h4 h5
    simp [fileDragEnd, fileDragEndCore, h1, h2, h3, h4, h5]
  · intro inp df de h1 h2 h3 h4 h5
    simp [fileDragEnd, fileDragEndCore, mainTargetPair, h1, h2, h3, h4, h5]
  · intro inp df ce h1 h2 h3 h4 h5 h6
    simp [fileDragEnd, fileDragEndCore, mainTargetPair, h1, h2, h3, h4, h5, h6]
  · intro inp df he h1 h2 h3 h4 h5 h6 h7
    simp [fileDragEnd, fileDragEndCore, mainTargetPair, h1, h2, h3, h4, h5, h6, h7]
  · intro inp df h1 h2 h3 h4
    simp [fileDragEnd, fileDragEndCore, mainTargetPair, finishMove, h1, h2, h3, h4]

/-- Witness for C3: the tracked hovered folder (`2`) overrides an element
stack that carries a folder-content marker. -/
theorem drag_end_target_resolution_priority_witness :
    fileDragEnd { hasOver := true, activeId := .vStr "f1",
                  files := [{ id := .vStr "f1", folder_id := .vStr "1" }],
                  hoverFolderId := some "2",
                  elems := [{ dataFolderContent := some "true" }] }
      = MoveAction.moved "f1" (some "2") :=
  drag_end_target_resolution_priority.2.2.1 _ { id := .vStr "f1", folder_id := .vStr "1" } "2"
    rfl (by decide) rfl (by decide) (by decide)

/- ============ C4: same-location drops ============ -/

/-- C4 counterexample: the tracked hovered folder equals the dragged
file's current folder (`1`), so the resolved target equals the source
container, yet because the pointer is over a sidebar element with no
folder-content or folder-header marker, `handleDragEnd` issues
`onMoveToFolder(fileId, null)` — a move call — changing the container to
root, against the claim that no move call is issued. -/
theorem same_folder_hover_sidebar_moves_to_root :
    fileDragEnd { hasOver := true, activeId := .vStr "f1",
                  files := [{ id := .vStr "f1", folder_id := .vStr "1" }],
                  hoverFolderId := some "1",
                  elems := [{ className := some "sidebar" }] }
      = MoveAction.moved "f1" none := by decide

/-- C4 amended: a drop whose resolved target equals the source container
issues no move call, with two exceptions.  On the main hit-testing path a
root target is the same location whenever `folder_id` is any of null,
undefined, 0, `'0'` or the empty string, and a folder target is compared
by stringified equality — then the move is skipped.  When the tracked
hovered folder equals the source folder the move is likewise skipped,
unless the pointer is over a sidebar area with no folder-content and no
folder-header element, in which case a move-to-root call is issued; and in
the sidebar root-area branch only a strictly null `folder_id` suppresses
the call, so the other root-equivalent values still issue a move-to-root
call. -/
theorem same_location_no_move :
    (∀ (inp : FileDragEndInput) (df : FileRec) (target : Option String),
      inp.hasOver = true →
      inp.files.find? (fileMatch inp.activeId) = some df →
      attrTruthy inp.hoverFolderId = false →
      (inp.elems.any sidebarPred = false ∨ (inp.elems.find? rootAreaPred) = none) →
      (mainTargetPair (originalFolderOf df) inp.elems).1 = target →
      (match target with
       | none => isSourceRoot df = true
       | some t => t = jsString df.folder_id) →
      fileDragEnd inp = MoveAction.skipped) ∧
    (∀ (inp : FileDragEndInput) (df : FileRec) (hov : String),
      inp.hasOver = true →
      inp.files.find? (fileMatch inp.activeId) = some df →
      inp.hoverFolderId = some hov → hov ≠ "" → hov = originalFolderOf df →
      (inp.elems.any sidebarPred && (inp.elems.find? contentPred).isNone &&
        (inp.elems.find? headerPred).isNone) = false →
      fileDragEnd inp = MoveAction.skipped) ∧
    (∀ (inp : FileDragEndInput) (df : FileRec) (hov : String),
      inp.hasOver = true →
      inp.files.find? (fileMatch inp.activeId) = some df →
      inp.hoverFolderId = some hov → hov ≠ "" → hov = originalFolderOf df →
      inp.elems.any sidebarPred = true →
      inp.elems.find? contentPred = none →
      inp.elems.find? headerPred = none →
      fileDragEnd inp = MoveAction.moved (jsString inp.activeId) none) ∧
    (∀ (inp : FileDragEndInput) (df : FileRec),
      inp.hasOver = true →
      inp.files.find? (fileMatch inp.activeId) = some df →
      attrTruthy inp.hoverFolderId = false →
      inp.elems.any sidebarPred = true →
      (inp.elems.find? rootAreaPred).isSome = true →
      df.folder_id ≠ JsVal.vNull →
      fileDragEnd inp = MoveAction.moved (jsString inp.activeId) none) := by
  refine ⟨?_, ?_, ?_, ?_⟩
  · intro inp df target h1 h2 h3 h4 h5 h6
    have hcond : (inp.elems.any sidebarPred && (inp.elems.find? rootAreaPred).isSome) = false := by
      rcases h4 with h4 | h4 <;> simp [h4]
    simp only [fileDragEnd, fileDragEndCore, h1, h2, h3, hcond, Bool.not_true,
      Bool.false_eq_true, if_false]
    rw [h5]
    cases target with
    | none =>
      simp only [] at h6
      simp [finishMove, h6]
    | some t =>
      simp only [] at h6
      simp [finishMove, beq_iff_eq.mpr h6]
  · intro inp df hov h1 h2 h3 h4 h5 h6
    have hbne : (hov != "") = true := bne_iff_ne.mpr h4
    have hbeq : (hov == originalFolderOf df) = true := beq_iff_eq.mpr h5
    simp [fileDragEnd, fileDragEndCore, hoverBranch, h1, h2, h3, attrTruthy, hbne, hbeq, h6]
  · intro inp df hov h1 h2 h3 h4 h5 h6 h7 h8
    have hbne : (hov != "") = true := bne_iff_ne.mpr h4
    have hbeq : (hov == originalFolderOf df) = true := beq_iff_eq.mpr h5
    simp [fileDragEnd, fileDragEndCore, hoverBranch, h1, h2, h3, attrTruthy, hbne, hbeq,
      h6, h7, h8]
  · intro inp df h1 h2 h3 h4 h5 h6
    have hnull : (df.folder_id == JsVal.vNull) = false := beq_eq_false_iff_ne.mpr h6
    simp [fileDragEnd, fileDragEndCore, h1, h2, h3, h4, h5, hnull]

/-- Witness for C4: a file of folder `2` dropped on its own folder header
(resolved through the main path) triggers no move call. -/
theorem same_location_no_move_witness :
    fileDragEnd { hasOver := true, activeId := .vStr "f1",
                  files := [{ id := .vStr "f1", folder_id := .vStr "2" }],
                  hoverFolderId := none,
                  elems := [{ idAttr := "folder-2" }] }
      = MoveAction.skipped :=
  same_location_no_move.1 _ { id := .vStr "f1", folder_id := .vStr "2" } (some "2")
    rfl (by decide) rfl (Or.inl (by decide)) (by decide) (by decide)
